import Mathlib

/-!
Shallow embedding of the mcpd-client core (daemon supervisor, namespacing
bridge, protocol translator) and proofs about its specification claims.

Strings are modelled as `List Char`; JavaScript `String.prototype.split`,
substring containment and truthiness are embedded as executable functions.
-/

namespace McpdClient

/-- Strings of the embedded program, as character lists. -/
abbrev Str := List Char

/-- Coerce a Lean string literal into the embedded string type. -/
def str (s : String) : Str := s.data

/-- Leftmost, non-overlapping split on the namespace delimiter `"__"`,
with the accumulator holding the (reversed) current segment.  This is the
semantics of JavaScript `name.split('__')`. -/
def splitDunderAux : Str → Str → List Str
  | [], acc => [acc.reverse]
  | [c], acc => [(c :: acc).reverse]
  | c₁ :: c₂ :: rest, acc =>
    if c₁ = '_' ∧ c₂ = '_' then acc.reverse :: splitDunderAux rest []
    else splitDunderAux (c₂ :: rest) (c₁ :: acc)

/-- JavaScript `s.split('__')`. -/
def splitDunder (s : Str) : List Str := splitDunderAux s []

/-- Whether a string contains the namespace delimiter `"__"` anywhere
(overlapping occurrences included), i.e. JavaScript `s.includes('__')`. -/
def containsDunder : Str → Bool
  | [] => false
  | [_] => false
  | c₁ :: c₂ :: rest => (c₁ = '_' && c₂ = '_') || containsDunder (c₂ :: rest)

/-- Whether the string does not end in an underscore character. -/
def noTrailUnderscore : Str → Bool
  | [] => true
  | ['_'] => false
  | [_] => true
  | _ :: c :: rest => noTrailUnderscore (c :: rest)

/-- Boolean list-prefix test (needle is a prefix of the haystack). -/
def startsWith : Str → Str → Bool
  | [], _ => true
  | _ :: _, [] => false
  | n :: ns, h :: hs => n = h && startsWith ns hs

/-- JavaScript `hay.includes(needle)`: substring containment. -/
def containsStr (needle : Str) : Str → Bool
  | [] => needle.isEmpty
  | c :: rest => startsWith needle (c :: rest) || containsStr needle rest

/-- JavaScript truthiness of an optional string (`undefined` and the empty
string are falsy). -/
def optTruthy : Option Str → Bool
  | none => false
  | some s => !s.isEmpty

/-- Bridge mode from `McpdBridgeServer`: `unified` (all servers) or
`individual` (one target server). -/
inductive Mode where
  | unified
  | individual
  deriving DecidableEq

/-- Error message thrown by `parseToolName` (the `InvalidToolNameFormat`
failure of the spec): `Invalid tool name format: ${name}`. -/
def invalidToolNameMsg (name : Str) : Str :=
  str "Invalid tool name format: " ++ name

/-- `McpdBridgeServer.parseToolName`: decode an external tool name into a
`(server, tool)` pair.  In individual mode with namespacing disabled and a
truthy target server, the target server is substituted unconditionally.
Otherwise the name is split on `"__"`; exactly two parts are returned as
`(server, tool)`; any other number of parts falls back to a truthy target
server if one is configured and fails otherwise. -/
def parseToolName (mode : Mode) (ns : Bool) (target : Option Str) (name : Str) :
    Except Str (Str × Str) :=
  if decide (mode = Mode.individual) && !ns && optTruthy target then
    Except.ok (target.getD [], name)
  else
    match splitDunder name with
    | [sv, tl] => Except.ok (sv, tl)
    | _ =>
      if optTruthy target then Except.ok (target.getD [], name)
      else Except.error (invalidToolNameMsg name)

/-- The namespacing applied in `McpdBridgeServer.getAllTools`: unified mode
always namespaces, individual mode namespaces only when enabled. -/
def encodeToolName (mode : Mode) (ns : Bool) (server tool : Str) : Str :=
  if mode = Mode.unified then server ++ str "__" ++ tool
  else if ns then server ++ str "__" ++ tool
  else tool

/-! ## JSON values and the tool-call result normalization -/

/-- JSON values flowing between the bridge and the daemon backend. -/
inductive Json where
  | null
  | bool (b : Bool)
  | num (i : Int)
  | str (s : Str)
  | arr (xs : List Json)
  | obj (kvs : List (Str × Json))

/-- First binding of a key in a JSON object (JavaScript property lookup). -/
def lookupProp : List (Str × Json) → Str → Option Json
  | [], _ => none
  | (k, v) :: rest, key => if k = key then some v else lookupProp rest key

/-- JavaScript truthiness of a JSON value. -/
def jsTruthy : Json → Bool
  | Json.null => false
  | Json.bool b => b
  | Json.num i => decide (i ≠ 0)
  | Json.str s => !s.isEmpty
  | Json.arr _ => true
  | Json.obj _ => true

/-- JavaScript property access `v.k`: a `TypeError` on `null`, `undefined`
(`none`) on primitives and missing keys, the bound value otherwise. -/
def propAccess (v : Json) (key : Str) : Except Str (Option Json) :=
  match v with
  | Json.null =>
    Except.error (str "Cannot read properties of null (reading '" ++ key ++ str "')")
  | Json.obj kvs => Except.ok (lookupProp kvs key)
  | _ => Except.ok none

/-- Decimal rendering of a natural number. -/
def natToStr (n : Nat) : Str := Nat.toDigits 10 n

/-- Decimal rendering of an integer. -/
def intToStr : Int → Str
  | Int.ofNat n => natToStr n
  | Int.negSucc n => '-' :: natToStr (n + 1)

/-- JSON string escaping (quote, backslash, newline). -/
def jsonEscape : Str → Str
  | [] => []
  | '"' :: rest => '\\' :: '"' :: jsonEscape rest
  | '\\' :: rest => '\\' :: '\\' :: jsonEscape rest
  | '\n' :: rest => '\\' :: 'n' :: jsonEscape rest
  | c :: rest => c :: jsonEscape rest

/-- An indentation of `n` spaces. -/
def spaces (n : Nat) : Str := List.replicate n ' '

mutual

/-- `JSON.stringify(v, null, 2)`: pretty-printing with two-space indent,
`ind` being the indentation of the enclosing value. -/
def stringifyJson (ind : Nat) : Json → Str
  | Json.null => str "null"
  | Json.bool true => str "true"
  | Json.bool false => str "false"
  | Json.num i => intToStr i
  | Json.str s => '"' :: (jsonEscape s ++ ['"'])
  | Json.arr [] => str "[]"
  | Json.arr (x :: xs) =>
    str "[\n" ++ stringifyItems (ind + 2) (x :: xs) ++ str "\n" ++ spaces ind ++ str "]"
  | Json.obj [] => str "\x7b\x7d"
  | Json.obj (kv :: kvs) =>
    str "\x7b\n" ++ stringifyProps (ind + 2) (kv :: kvs) ++ str "\n" ++ spaces ind ++
      str "\x7d"

/-- Array elements, one per line, comma separated. -/
def stringifyItems (ind : Nat) : List Json → Str
  | [] => []
  | [x] => spaces ind ++ stringifyJson ind x
  | x :: y :: xs =>
    spaces ind ++ stringifyJson ind x ++ str ",\n" ++ stringifyItems ind (y :: xs)

/-- Object properties, one per line, comma separated. -/
def stringifyProps (ind : Nat) : List (Str × Json) → Str
  | [] => []
  | [(k, v)] => spaces ind ++ ('"' :: (jsonEscape k ++ ['"'])) ++ str ": " ++ stringifyJson ind v
  | (k, v) :: kv :: kvs =>
    spaces ind ++ ('"' :: (jsonEscape k ++ ['"'])) ++ str ": " ++ stringifyJson ind v ++
      str ",\n" ++ stringifyProps ind (kv :: kvs)

end

/-- An MCP text content block `{type: "text", text: s}`. -/
def textBlock (s : Str) : Json :=
  Json.obj [(str "type", Json.str (str "text")), (str "text", Json.str s)]

/-- The response-formatting section of the bridge's `CallToolRequestSchema`
handler: a truthy `result.content` is passed through, a bare string is
wrapped as one text block, anything else is pretty-printed as JSON; property
access on a `null` result raises (is propagated as an error). -/
def formatContent (result : Json) : Except Str Json :=
  match propAccess result (str "content") with
  | Except.error m => Except.error m
  | Except.ok c =>
    if (c.map jsTruthy).getD false then Except.ok (c.getD Json.null)
    else
      match result with
      | Json.str s => Except.ok (Json.arr [textBlock s])
      | _ => Except.ok (Json.arr [textBlock (stringifyJson 0 result)])

/-- The value a tool-call handler returns to the MCP session. -/
structure CallToolResult where
  content : Json
  isError : Bool

/-- The error result built in the handler's `catch` arm:
`{content:[{type:'text', text:'Error: ' + message}], isError: true}`. -/
def errorResult (msg : Str) : CallToolResult :=
  { content := Json.arr [textBlock (str "Error: " ++ msg)], isError := true }

/-- JavaScript `args || {}` for the optional `arguments` field. -/
def argsOrEmpty : Option Json → Json
  | none => Json.obj []
  | some j => if jsTruthy j then j else Json.obj []

/-- The bridge's `CallToolRequestSchema` handler: decode the name, invoke
the backend (modelled as an oracle from `(server, tool, arguments)` to a
response or a thrown error message), normalize the response; any failure
along the way is converted into an error-flagged result. -/
def callToolHandler (mode : Mode) (ns : Bool) (target : Option Str)
    (backend : Str → Str → Json → Except Str Json) (name : Str)
    (args : Option Json) : CallToolResult :=
  match parseToolName mode ns target name with
  | Except.error m => errorResult m
  | Except.ok (server, tool) =>
    match backend server tool (argsOrEmpty args) with
    | Except.error m => errorResult m
    | Except.ok result =>
      match formatContent result with
      | Except.error m => errorResult m
      | Except.ok content => { content := content, isError := false }

/-- The semantic failure condition of one tool call: the name fails to
decode, or the backend call fails, or the response formatting fails. -/
def callFails (mode : Mode) (ns : Bool) (target : Option Str)
    (backend : Str → Str → Json → Except Str Json) (name : Str)
    (args : Option Json) : Prop :=
  (∃ m, parseToolName mode ns target name = Except.error m) ∨
  (∃ sv tl, parseToolName mode ns target name = Except.ok (sv, tl) ∧
    ((∃ m, backend sv tl (argsOrEmpty args) = Except.error m) ∨
     (∃ j m, backend sv tl (argsOrEmpty args) = Except.ok j ∧
       formatContent j = Except.error m)))

/-! ## Tool catalog refresh and the in-memory cache -/

/-- A tool record fetched from the daemon (`McpdTool`). -/
structure McpdTool where
  name : Str
  description : Option Str
  inputSchema : Option Json

/-- A server record fetched from the daemon (`McpdServer`, relevant fields). -/
structure McpdServerR where
  name : Str
  pkg : Str

/-- The bridge's `toolCache : Map<string, McpdTool[]>` as an association
list in insertion order. -/
abbrev Cache := List (Str × List McpdTool)

/-- JavaScript `Map.prototype.set`: update in place or append. -/
def cacheSet (c : Cache) (k : Str) (v : List McpdTool) : Cache :=
  match c with
  | [] => [(k, v)]
  | (k', v') :: rest => if k' = k then (k, v) :: rest else (k', v') :: cacheSet rest k v

/-- JavaScript `Map.prototype.get`. -/
def cacheGet (c : Cache) (k : Str) : Option (List McpdTool) :=
  match c with
  | [] => none
  | (k', v') :: rest => if k' = k then some v' else cacheGet rest k

/-- `fetchServers`: the HTTP call either succeeds with a server list or the
error is caught and an empty list is returned. -/
def fetchServersWrap (o : Except Str (List McpdServerR)) : List McpdServerR :=
  match o with
  | Except.ok l => l
  | Except.error _ => []

/-- `fetchToolsForServer`: per-server fetch with the error caught and
replaced by an empty list. -/
def fetchToolsWrap (toolsO : Str → Except Str (List McpdTool)) (name : Str) :
    List McpdTool :=
  match toolsO name with
  | Except.ok l => l
  | Except.error _ => []

/-- The default `inputSchema` given to tools that declare none:
`{type: 'object', properties: {}}`. -/
def defaultSchema : Json :=
  Json.obj [(str "type", Json.str (str "object")), (str "properties", Json.obj [])]

/-- An entry of the aggregated tool catalog returned by `getAllTools`. -/
structure ToolEntry where
  name : Str
  description : Str
  inputSchema : Json

/-- One catalog entry built in `getAllTools`'s inner loop: the namespaced
name, `tool.description || '${tool.name} from ${server.name}'`, and
`tool.inputSchema || defaultSchema`. -/
def toolEntryOf (mode : Mode) (ns : Bool) (serverName : Str) (t : McpdTool) :
    ToolEntry :=
  { name := encodeToolName mode ns serverName t.name,
    description :=
      match t.description with
      | some d => if d.isEmpty then t.name ++ str " from " ++ serverName else d
      | none => t.name ++ str " from " ++ serverName,
    inputSchema :=
      match t.inputSchema with
      | some sc => if jsTruthy sc then sc else defaultSchema
      | none => defaultSchema }

/-- The per-server loop of `getAllTools`: fetch each server's tools, write
them into the cache as we go (`this.toolCache.set`), and accumulate the
namespaced entries. -/
def refreshLoop (mode : Mode) (ns : Bool)
    (toolsO : Str → Except Str (List McpdTool)) :
    List McpdServerR → Cache → List ToolEntry × Cache
  | [], c => ([], c)
  | sv :: rest, c =>
    let tools := fetchToolsWrap toolsO sv.name
    let res := refreshLoop mode ns toolsO rest (cacheSet c sv.name tools)
    (tools.map (toolEntryOf mode ns sv.name) ++ res.1, res.2)

/-- `McpdBridgeServer.getAllTools` over fetch oracles: select the server
list (the single target server in individual mode, all servers otherwise;
an unknown target returns an empty catalog untouched), then run the
per-server loop against the cache. -/
def getAllToolsM (mode : Mode) (ns : Bool) (target : Option Str)
    (serversO : Except Str (List McpdServerR))
    (toolsO : Str → Except Str (List McpdTool)) (cache : Cache) :
    List ToolEntry × Cache :=
  let fetched := fetchServersWrap serversO
  if decide (mode = Mode.individual) && optTruthy target then
    match fetched.find? (fun sv => sv.name = target.getD []) with
    | none => ([], cache)
    | some sv => refreshLoop mode ns toolsO [sv] cache
  else refreshLoop mode ns toolsO fetched cache

/-- Modelled from the spec: the catalog that a fully-successful,
fully-replacing refresh would leave behind — exactly this refresh's
per-server entries and nothing else (spec: "the new catalog fully replaces
the previous one"). -/
def specFreshCatalog (mode : Mode) (ns : Bool)
    (toolsO : Str → Except Str (List McpdTool)) (servers : List McpdServerR) :
    Cache :=
  (refreshLoop mode ns toolsO servers []).2

/-! ## Daemon supervisor: start race, idempotent start, stop -/

/-- The `DaemonStatus` handle returned by `MCPDManager.getStatus`. -/
structure DaemonStatus where
  running : Bool
  pid : Option Nat
  apiUrl : Str
  logPath : Str
  deriving DecidableEq

/-- Static configuration of one `MCPDManager` (binary and config paths,
interpolated into error messages). -/
structure RaceCfg where
  mcpdPath : Str
  configPath : Str

/-- The mutable state shared by the four competing `startDaemon` triggers:
the single-settlement promise (`settled`), the `hasResolved` flag, whether
`clearTimeout` has been called on the absolute timeout, whether the
port-conflict probe has been scheduled, whether the spawned process is
still referenced (`this.daemonProcess`), whether it was killed, and the
accumulated stderr. -/
structure RaceState where
  settled : Option (Except Str DaemonStatus)
  hasResolved : Bool
  timeoutCleared : Bool
  conflictPending : Bool
  processAlive : Bool
  killed : Bool
  errorOutput : Str

/-- The state right after a successful spawn. -/
def raceStart : RaceState :=
  { settled := none, hasResolved := false, timeoutCleared := false,
    conflictPending := false, processAlive := true, killed := false,
    errorOutput := [] }

/-- Settling a JavaScript promise: the first `resolve`/`reject` wins and
every later call is absorbed. -/
def settleR (s : RaceState) (o : Except Str DaemonStatus) : RaceState :=
  match s.settled with
  | some _ => s
  | none => { s with settled := some o }

/-- The stderr pattern that signals a port conflict. -/
def containsAddrInUse (s : Str) : Bool :=
  containsStr (str "address already in use") s

/-- The absolute-timeout rejection message. -/
def absTimeoutMsg (cfg : RaceCfg) (errout : Str) : Str :=
  str "Daemon failed to start within 8 seconds. Path: " ++ cfg.mcpdPath ++
    str ", Config: " ++ cfg.configPath ++ str ", Error output: " ++
    (if errout.isEmpty then str "none" else errout)

/-- The asynchronous triggers that can fire during one `startDaemon`
attempt: the process `error` event, a stderr chunk, the process `exit`
event, the 500 ms port-conflict probe, the 5 s delayed health probe, and
the 8 s absolute timeout. -/
inductive StartEv where
  | procError (msg : Str)
  | stderrData (chunk : Str)
  | procExit (code : Option Int)
  | portProbe (r : Except Str DaemonStatus)
  | healthProbe (r : Except Str DaemonStatus)
  | absTimeout

/-- One trigger firing: the exact translation of the corresponding handler
in `MCPDManager.startDaemon`.  Note that the `exit` handler neither checks
nor sets `hasResolved` and does not clear the absolute timeout. -/
def raceStep (cfg : RaceCfg) (s : RaceState) : StartEv → RaceState
  | StartEv.procError msg =>
    let s := { s with processAlive := false }
    if s.hasResolved then s
    else
      settleR { s with hasResolved := true, timeoutCleared := true }
        (Except.error (str "Failed to start daemon: " ++ msg))
  | StartEv.stderrData chunk =>
    let s := { s with errorOutput := s.errorOutput ++ chunk }
    if containsAddrInUse chunk then
      { s with killed := s.killed || s.processAlive, processAlive := false,
               conflictPending := true }
    else s
  | StartEv.procExit code =>
    let s := { s with processAlive := false }
    if containsAddrInUse s.errorOutput then s
    else
      match code with
      | some c =>
        if c ≠ 0 then
          settleR s (Except.error (str "Daemon exited with code " ++ intToStr c ++
            str ": " ++ s.errorOutput))
        else s
      | none => s
  | StartEv.portProbe r =>
    if !s.conflictPending then s
    else if s.hasResolved then s
    else
      match r with
      | Except.ok st =>
        if st.running then
          settleR { s with hasResolved := true, timeoutCleared := true } (Except.ok st)
        else
          settleR { s with hasResolved := true, timeoutCleared := true }
            (Except.error (str "Port 8090 is in use but cannot connect to daemon"))
      | Except.error _ =>
        settleR { s with hasResolved := true, timeoutCleared := true }
          (Except.error (str "Port 8090 is in use by another application"))
  | StartEv.healthProbe r =>
    if s.hasResolved then s
    else
      match r with
      | Except.ok st =>
        if st.running then
          settleR { s with hasResolved := true, timeoutCleared := true } (Except.ok st)
        else if s.errorOutput.isEmpty then
          settleR { s with hasResolved := true, timeoutCleared := true }
            (Except.error (str "Daemon failed to start - not running after 5 seconds"))
        else s
      | Except.error msg =>
        if s.errorOutput.isEmpty then
          settleR { s with hasResolved := true, timeoutCleared := true }
            (Except.error msg)
        else s
  | StartEv.absTimeout =>
    if s.timeoutCleared then s
    else if s.hasResolved then s
    else settleR { s with hasResolved := true } (Except.error (absTimeoutMsg cfg s.errorOutput))

/-- Run one `startDaemon` race from the post-spawn state through a sequence
of trigger firings. -/
def runRace (cfg : RaceCfg) (evs : List StartEv) : RaceState :=
  evs.foldl (raceStep cfg) raceStart

/-- The synchronous prologue of `startDaemon` before any spawn: probe the
current status and short-circuit if already running; return a fresh status
if a process is already owned; reject if the binary path is explicit but
does not exist. -/
inductive Phase1Result where
  | immediateOk (st : DaemonStatus)
  | immediateErr (msg : Str)
  | proceedToSpawn
  deriving DecidableEq

/-- The `BinaryNotFound` rejection message of `startDaemon`. -/
def binaryNotFoundMsg (mcpdPath : Str) : Str :=
  if startsWith (str "/") mcpdPath then
    str "mcpd binary not found at " ++ mcpdPath ++
      str ". This should not happen as mcpd is bundled with the app. Please report this issue."
  else
    str "mcpd binary not found at " ++ mcpdPath ++
      str ". Please install mcpd using: go install github.com/mozilla-ai/mcpd@latest"

/-- `MCPDManager.startDaemon` up to (and excluding) the spawn: `probe1` is
the status returned by the initial `getStatus`, `probe2` the one returned
when a process handle is already owned, `binaryEx` whether
`fs.existsSync(this.mcpdPath)` holds. -/
def startDaemonPhase1 (cfg : RaceCfg) (probe1 probe2 : DaemonStatus)
    (ownedProcess : Bool) (binaryEx : Bool) : Phase1Result :=
  if probe1.running then Phase1Result.immediateOk probe1
  else if ownedProcess then Phase1Result.immediateOk probe2
  else if cfg.mcpdPath ≠ str "mcpd" ∧ ¬binaryEx then
    Phase1Result.immediateErr (binaryNotFoundMsg cfg.mcpdPath)
  else Phase1Result.proceedToSpawn

/-- `MCPDManager.stopDaemon`: with an owned process, signal it and resolve
on its exit; with none, run `pkill -f 'mcpd daemon'` and resolve on exit
codes 0 (killed) and 1 (nothing matched), reject on other codes, and
resolve if `pkill` itself cannot be spawned. -/
def stopDaemon (ownedProcess : Bool) (pkillResult : Except Str Int) :
    Except Str Unit :=
  if ownedProcess then Except.ok ()
  else
    match pkillResult with
    | Except.ok code =>
      if code = 0 ∨ code = 1 then Except.ok ()
      else Except.error (str "Failed to stop daemon, exit code: " ++ intToStr code)
    | Except.error _ => Except.ok ()

/-- The argument vector of the out-of-band termination fallback. -/
def pkillArgv : List Str := [str "pkill", str "-f", str "mcpd daemon"]

/-! ## Lemmas about splitting on the namespace delimiter -/

theorem splitDunderAux_noDelim (s : Str) :
    ∀ acc, containsDunder s = false → splitDunderAux s acc = [acc.reverse ++ s] := by
  induction s with
  | nil => intro acc _; simp [splitDunderAux]
  | cons c rest ih =>
    intro acc h
    cases rest with
    | nil => simp [splitDunderAux]
    | cons d rest' =>
      simp only [containsDunder, Bool.or_eq_false_iff, Bool.and_eq_false_iff] at h
      rw [splitDunderAux.eq_3]
      rw [if_neg (by
        intro hcd
        rcases h.1 with h1 | h1 <;> simp [hcd.1, hcd.2] at h1)]
      rw [ih (c :: acc) h.2]
      simp

theorem splitDunder_noDelim (s : Str) (h : containsDunder s = false) :
    splitDunder s = [s] := by
  simpa using splitDunderAux_noDelim s [] h

theorem splitDunderAux_boundary (t : Str) (s : Str) :
    ∀ acc, containsDunder s = false → noTrailUnderscore s = true →
      splitDunderAux (s ++ '_' :: '_' :: t) acc = (acc.reverse ++ s) :: splitDunder t := by
  induction s with
  | nil =>
    intro acc _ _
    rw [List.nil_append, splitDunderAux.eq_3, if_pos ⟨rfl, rfl⟩]
    simp [splitDunder]
  | cons c rest ih =>
    intro acc hc ht
    cases rest with
    | nil =>
      have hcu : c ≠ '_' := by
        intro h
        subst h
        simp [noTrailUnderscore] at ht
      rw [List.cons_append, List.nil_append, splitDunderAux.eq_3,
        if_neg (fun hcd => hcu hcd.1), splitDunderAux.eq_3, if_pos ⟨rfl, rfl⟩]
      simp [splitDunder]
    | cons d rest' =>
      simp only [containsDunder, Bool.or_eq_false_iff, Bool.and_eq_false_iff] at hc
      have hnd : ¬(c = '_' ∧ d = '_') := by
        intro hcd
        rcases hc.1 with h1 | h1 <;> simp [hcd.1, hcd.2] at h1
      have ht' : noTrailUnderscore (d :: rest') = true := by
        simpa [noTrailUnderscore] using ht
      rw [List.cons_append]
      rw [show (d :: rest') ++ '_' :: '_' :: t = d :: (rest' ++ '_' :: '_' :: t) by simp,
        splitDunderAux.eq_3]
      rw [if_neg (by
        intro hcd
        exact hnd ⟨hcd.1, hcd.2⟩)]
      rw [show d :: (rest' ++ '_' :: '_' :: t) = (d :: rest') ++ '_' :: '_' :: t by simp]
      rw [ih (c :: acc) hc.2 ht']
      simp

theorem splitDunder_encode (server tool : Str)
    (hs : containsDunder server = false) (hts : noTrailUnderscore server = true)
    (htl : containsDunder tool = false) :
    splitDunder (server ++ str "__" ++ tool) = [server, tool] := by
  have : server ++ str "__" ++ tool = server ++ '_' :: '_' :: tool := by
    simp [str]
  rw [this, splitDunder, splitDunderAux_boundary tool server [] hs hts,
    splitDunder_noDelim tool htl]
  simp

/-! ## C2: encode/decode roundtrip -/

/-- C2 (amended): for every server and tool name that contain no namespace
delimiter, and where the server name additionally does not end in an
underscore, encoding in Unified mode and decoding the result yields back
exactly the original `(server, tool)` pair. -/
theorem c2_roundtrip_amended (server tool : Str) (ns : Bool) (target : Option Str)
    (hs : containsDunder server = false) (htl : containsDunder tool = false)
    (hts : noTrailUnderscore server = true) :
    parseToolName Mode.unified ns target
      (encodeToolName Mode.unified ns server tool) = Except.ok (server, tool) := by
  have he : encodeToolName Mode.unified ns server tool = server ++ str "__" ++ tool := by
    simp [encodeToolName]
  rw [he, parseToolName]
  rw [if_neg (by simp)]
  rw [splitDunder_encode server tool hs hts htl]

/-- Witness for C2 (amended): the roundtrip at `("filesystem", "read_file")`. -/
theorem c2_roundtrip_amended_witness :
    parseToolName Mode.unified true none
      (encodeToolName Mode.unified true (str "filesystem") (str "read_file")) =
      Except.ok (str "filesystem", str "read_file") :=
  c2_roundtrip_amended (str "filesystem") (str "read_file") true none rfl rfl rfl

/-- Counterexample for C2 as stated: `server = "a_"` and `tool = "b"` contain
no namespace delimiter, yet encoding yields `"a___b"`, which decodes to
`("a", "_b")`, not the original pair. -/
theorem c2_counterexample :
    containsDunder (str "a_") = false ∧ containsDunder (str "b") = false ∧
    parseToolName Mode.unified true none
      (encodeToolName Mode.unified true (str "a_") (str "b")) =
      Except.ok (str "a", str "_b") ∧
    parseToolName Mode.unified true none
      (encodeToolName Mode.unified true (str "a_") (str "b")) ≠
      Except.ok (str "a_", str "b") := by
  refine ⟨rfl, rfl, rfl, ?_⟩
  intro h
  have h2 : (str "a", str "_b") = (str "a_", str "b") :=
    Except.ok.inj ((rfl.trans h : Except.ok (str "a", str "_b") =
      Except.ok (str "a_", str "b")))
  exact absurd h2 (by decide)

/-! ## C3: names with more than one delimiter -/

/-- C3 (amended): a name that splits into more than two parts on the
namespace delimiter fails to decode with `InvalidToolNameFormat` in every
configuration whose fixed target server is absent or falsy; with a truthy
fixed target server the decoder instead routes the whole name to that
server. -/
theorem c3_multi_delim_amended (mode : Mode) (ns : Bool) (target : Option Str)
    (name : Str) (ht : optTruthy target = false)
    (hn : 3 ≤ (splitDunder name).length) :
    parseToolName mode ns target name = Except.error (invalidToolNameMsg name) := by
  rw [parseToolName, if_neg (by simp [ht])]
  rcases hl : splitDunder name with _ | ⟨a, _ | ⟨b, _ | ⟨c, r⟩⟩⟩
  · rw [hl] at hn; simp at hn
  · rw [hl] at hn; simp at hn
  · rw [hl] at hn; simp at hn
  · simp [ht]

/-- Witness for C3 (amended): decoding `"a__b__c"` with no target server
fails with `InvalidToolNameFormat`. -/
theorem c3_multi_delim_amended_witness :
    parseToolName Mode.unified true none (str "a__b__c") =
      Except.error (invalidToolNameMsg (str "a__b__c")) :=
  c3_multi_delim_amended Mode.unified true none (str "a__b__c") rfl (by decide)

/-- Counterexample for C3 as stated: with a truthy fixed target server
(individual mode, namespacing on), the name `"a__b__c"` — which contains
the delimiter more than once — does not fail; the whole name is routed to
the target server. -/
theorem c3_counterexample :
    (splitDunder (str "a__b__c")).length = 3 ∧
    parseToolName Mode.individual true (some (str "fs")) (str "a__b__c") =
      Except.ok (str "fs", str "a__b__c") ∧
    parseToolName Mode.individual true (some (str "fs")) (str "a__b__c") ≠
      Except.error (invalidToolNameMsg (str "a__b__c")) := by
  refine ⟨rfl, rfl, ?_⟩
  intro h
  rw [show parseToolName Mode.individual true (some (str "fs")) (str "a__b__c") =
    Except.ok (str "fs", str "a__b__c") from rfl] at h
  exact Except.noConfusion h

/-! ## C10: prefix routing in individual mode with namespacing -/

/-- C10: in individual mode with namespacing enabled, a name that splits
into exactly two parts is routed to the server named by its prefix, with no
check against the session's fixed target server; the fixed target is used
only when the name does not split into exactly two parts. -/
theorem c10_prefix_routing (A t B name : Str) :
    (splitDunder name = [A, t] →
      parseToolName Mode.individual true (some B) name = Except.ok (A, t)) ∧
    ((splitDunder name).length ≠ 2 → optTruthy (some B) = true →
      parseToolName Mode.individual true (some B) name = Except.ok (B, name)) := by
  constructor
  · intro hl
    rw [parseToolName, if_neg (by simp), hl]
  · intro hn hb
    rw [parseToolName, if_neg (by simp)]
    rcases hl : splitDunder name with _ | ⟨a, _ | ⟨b, _ | ⟨c, r⟩⟩⟩
    · simp [hb]
    · simp [hb]
    · rw [hl] at hn; simp at hn
    · simp [hb]

/-- Witness for C10: the name `"other__tool"` received by a bridge fixed to
server `"fs"` is routed to server `"other"`, and the unsplittable name
`"plain"` falls back to the fixed target. -/
theorem c10_prefix_routing_witness :
    parseToolName Mode.individual true (some (str "fs")) (str "other__tool") =
      Except.ok (str "other", str "tool") ∧
    parseToolName Mode.individual true (some (str "fs")) (str "plain") =
      Except.ok (str "fs", str "plain") :=
  ⟨(c10_prefix_routing (str "other") (str "tool") (str "fs") (str "other__tool")).1
      (by decide),
   (c10_prefix_routing (str "other") (str "tool") (str "fs") (str "plain")).2
      (by decide) rfl⟩

/-! ## C4: idempotent start short-circuit -/

/-- C4: if the initial health probe reports the daemon already running,
`startDaemon` returns that probe's handle immediately — no spawn is reached
— for every state of the owned process handle, the fallback probe, and the
binary lookup. -/
theorem c4_idempotent_short_circuit (cfg : RaceCfg) (probe1 probe2 : DaemonStatus)
    (ownedProcess binaryEx : Bool) (h : probe1.running = true) :
    startDaemonPhase1 cfg probe1 probe2 ownedProcess binaryEx =
      Phase1Result.immediateOk probe1 := by
  simp [startDaemonPhase1, h]

/-- Witness for C4: a running probe result short-circuits even while a
process handle is owned and the binary is missing. -/
theorem c4_idempotent_short_circuit_witness :
    startDaemonPhase1 ⟨str "/opt/mcpd", str "cfg.toml"⟩
      ⟨true, some 41, str "http://localhost:8090", str "mcpd.log"⟩
      ⟨false, none, str "http://localhost:8090", str "mcpd.log"⟩ true false =
      Phase1Result.immediateOk
        ⟨true, some 41, str "http://localhost:8090", str "mcpd.log"⟩ :=
  c4_idempotent_short_circuit _ _ _ true false rfl

/-! ## C5: port-conflict reconciliation -/

/-- C5: a stderr chunk matching the "address already in use" pattern kills
the owned spawn (when still referenced), drops the handle, and schedules
the conflict probe; the conflict probe then settles the pending start with
the existing daemon's handle when the probe reports it healthy, and with a
port-conflict rejection otherwise (unreachable probe or not running). -/
theorem c5_port_conflict (cfg : RaceCfg) (s s₂ : RaceState) (chunk em : Str)
    (st : DaemonStatus) (hc : containsAddrInUse chunk = true)
    (h2p : s₂.conflictPending = true) (h2r : s₂.hasResolved = false)
    (h2s : s₂.settled = none) :
    ((raceStep cfg s (StartEv.stderrData chunk)).processAlive = false ∧
     (s.processAlive = true → (raceStep cfg s (StartEv.stderrData chunk)).killed = true) ∧
     (raceStep cfg s (StartEv.stderrData chunk)).conflictPending = true) ∧
    (st.running = true →
      (raceStep cfg s₂ (StartEv.portProbe (Except.ok st))).settled = some (Except.ok st)) ∧
    (st.running = false →
      (raceStep cfg s₂ (StartEv.portProbe (Except.ok st))).settled =
        some (Except.error (str "Port 8090 is in use but cannot connect to daemon"))) ∧
    ((raceStep cfg s₂ (StartEv.portProbe (Except.error em))).settled =
      some (Except.error (str "Port 8090 is in use by another application"))) := by
  refine ⟨⟨?_, ?_, ?_⟩, ?_, ?_, ?_⟩
  · simp [raceStep, hc]
  · intro hp; simp [raceStep, hc, hp]
  · simp [raceStep, hc]
  · intro hr; simp [raceStep, settleR, h2p, h2r, h2s, hr]
  · intro hr; simp [raceStep, settleR, h2p, h2r, h2s, hr]
  · simp [raceStep, settleR, h2p, h2r, h2s]

/-- Witness for C5: the conflict handlers at a concrete state and probe. -/
theorem c5_port_conflict_witness :
    ((raceStep ⟨str "mcpd", str "cfg"⟩ raceStart
        (StartEv.stderrData (str "listen tcp: address already in use"))).killed = true) ∧
    ((raceStep ⟨str "mcpd", str "cfg"⟩
        { raceStart with conflictPending := true }
        (StartEv.portProbe (Except.ok
          ⟨true, none, str "http://localhost:8090", str "mcpd.log"⟩))).settled =
      some (Except.ok ⟨true, none, str "http://localhost:8090", str "mcpd.log"⟩)) :=
  ⟨(c5_port_conflict ⟨str "mcpd", str "cfg"⟩ raceStart
      { raceStart with conflictPending := true }
      (str "listen tcp: address already in use") (str "probe failed")
      ⟨true, none, str "http://localhost:8090", str "mcpd.log"⟩
      (by decide) rfl rfl rfl).1.2.1 rfl,
   (c5_port_conflict ⟨str "mcpd", str "cfg"⟩ raceStart
      { raceStart with conflictPending := true }
      (str "listen tcp: address already in use") (str "probe failed")
      ⟨true, none, str "http://localhost:8090", str "mcpd.log"⟩
      (by decide) rfl rfl rfl).2.1 rfl⟩

/-! ## C6: stop with no owned process -/

/-- C6: with no owned child process, `stopDaemon` falls back to `pkill`
name/argument matching and resolves both when processes were killed (exit
code 0) and when nothing matched (exit code 1); it also resolves when
`pkill` cannot be spawned, and rejects only on other exit codes. -/
theorem c6_stop_fallback_success (c : Int) (e : Str) :
    stopDaemon false (Except.ok 1) = Except.ok () ∧
    stopDaemon false (Except.ok 0) = Except.ok () ∧
    (¬(c = 0 ∨ c = 1) →
      stopDaemon false (Except.ok c) =
        Except.error (str "Failed to stop daemon, exit code: " ++ intToStr c)) ∧
    stopDaemon false (Except.error e) = Except.ok () := by
  refine ⟨rfl, rfl, fun h => ?_, rfl⟩
  simp [stopDaemon, h]

/-- Witness for C6: "no matching process found" (exit code 1) resolves,
and exit code 2 rejects. -/
theorem c6_stop_fallback_success_witness :
    stopDaemon false (Except.ok 1) = Except.ok () ∧
    stopDaemon false (Except.ok 2) =
      Except.error (str "Failed to stop daemon, exit code: " ++ intToStr 2) :=
  ⟨(c6_stop_fallback_success 2 (str "spawn failed")).1,
   (c6_stop_fallback_success 2 (str "spawn failed")).2.2.1 (by decide)⟩

/-! ## C1: single settlement of the start race -/

theorem settleR_settled_of_some (s : RaceState) (o o' : Except Str DaemonStatus)
    (h : s.settled = some o) : (settleR s o').settled = some o := by
  simp [settleR, h]

theorem settleR_isSome (s : RaceState) (o : Except Str DaemonStatus) :
    ((settleR s o).settled).isSome = true := by
  cases hs : s.settled <;> simp [settleR, hs]

/-- No trigger handler can overwrite a settled promise: every handler
settles only through `settleR`, which absorbs late calls. -/
theorem raceStep_settled_mono (cfg : RaceCfg) (s : RaceState) (e : StartEv)
    (o : Except Str DaemonStatus) (h : s.settled = some o) :
    (raceStep cfg s e).settled = some o := by
  cases e <;> simp only [raceStep] <;> (repeat' split) <;>
    first
      | exact h
      | exact settleR_settled_of_some _ _ _ h

/-- The flags `hasResolved` and `timeoutCleared` are only ever set in
branches that also settle the promise. -/
def RaceInv (s : RaceState) : Prop :=
  (s.hasResolved = true → (s.settled).isSome = true) ∧
  (s.timeoutCleared = true → (s.settled).isSome = true)

theorem raceStep_inv (cfg : RaceCfg) (s : RaceState) (e : StartEv)
    (h : RaceInv s) : RaceInv (raceStep cfg s e) := by
  obtain ⟨h1, h2⟩ := h
  cases e <;> simp only [raceStep] <;> (repeat' split) <;>
    first
      | exact ⟨fun _ => settleR_isSome _ _, fun _ => settleR_isSome _ _⟩
      | exact ⟨h1, h2⟩

theorem foldl_settled_mono (cfg : RaceCfg) (evs : List StartEv) :
    ∀ (s : RaceState) (o : Except Str DaemonStatus), s.settled = some o →
      (evs.foldl (raceStep cfg) s).settled = some o := by
  induction evs with
  | nil => intro s o h; simpa using h
  | cons e rest ih =>
    intro s o h
    rw [List.foldl_cons]
    exact ih _ o (raceStep_settled_mono cfg s e o h)

theorem foldl_settled_isSome (cfg : RaceCfg) (evs : List StartEv)
    (s : RaceState) (h : (s.settled).isSome = true) :
    ((evs.foldl (raceStep cfg) s).settled).isSome = true := by
  rcases ho : s.settled with _ | o
  · rw [ho] at h; simp at h
  · rw [foldl_settled_mono cfg evs s o ho]; rfl

theorem raceStep_absTimeout_isSome (cfg : RaceCfg) (s : RaceState)
    (h : RaceInv s) : ((raceStep cfg s StartEv.absTimeout).settled).isSome = true := by
  obtain ⟨h1, h2⟩ := h
  simp only [raceStep]
  repeat' split
  · exact h2 (by assumption)
  · exact h1 (by assumption)
  · exact settleR_isSome _ _

theorem mem_absTimeout_settles (cfg : RaceCfg) (evs : List StartEv) :
    ∀ (s : RaceState), RaceInv s → StartEv.absTimeout ∈ evs →
      ((evs.foldl (raceStep cfg) s).settled).isSome = true := by
  induction evs with
  | nil => intro s _ hmem; simp at hmem
  | cons e rest ih =>
    intro s hinv hmem
    rw [List.foldl_cons]
    rcases List.mem_cons.mp hmem with he | he
    · subst he
      exact foldl_settled_isSome cfg rest _ (raceStep_absTimeout_isSome cfg s hinv)
    · exact ih _ (raceStep_inv cfg s e hinv) he

/-- C1: one `startDaemon` race settles exactly once.  First, once any of
the competing triggers has settled the pending start at outcome `o`, every
later-firing trigger leaves that settlement unchanged (the JS promise
absorbs late `resolve`/`reject` calls, and every handler settles only
through it).  Second, a race in which the absolute timeout fires settles at
least once, so the pending start settles exactly once. -/
theorem c1_pending_start_settles_once (cfg : RaceCfg) (evs₁ evs₂ : List StartEv)
    (o : Except Str DaemonStatus) :
    ((runRace cfg evs₁).settled = some o →
      (runRace cfg (evs₁ ++ evs₂)).settled = some o) ∧
    (StartEv.absTimeout ∈ evs₁ → ((runRace cfg evs₁).settled).isSome = true) := by
  constructor
  · intro h
    rw [runRace, List.foldl_append]
    exact foldl_settled_mono cfg evs₂ _ o h
  · intro hmem
    exact mem_absTimeout_settles cfg evs₁ raceStart (by simp [RaceInv, raceStart]) hmem

/-- Witness for C1: a race whose absolute timeout fires first keeps its
timeout rejection even when the process-exit trigger fires afterwards, and
is settled. -/
theorem c1_pending_start_settles_once_witness :
    ((runRace ⟨str "mcpd", str "cfg"⟩ ([StartEv.absTimeout] ++ [StartEv.procExit (some 1)])).settled =
      some (Except.error (absTimeoutMsg ⟨str "mcpd", str "cfg"⟩ []))) ∧
    ((runRace ⟨str "mcpd", str "cfg"⟩ [StartEv.absTimeout]).settled).isSome = true :=
  ⟨(c1_pending_start_settles_once ⟨str "mcpd", str "cfg"⟩ [StartEv.absTimeout]
      [StartEv.procExit (some 1)] (Except.error (absTimeoutMsg ⟨str "mcpd", str "cfg"⟩ []))).1 rfl,
   (c1_pending_start_settles_once ⟨str "mcpd", str "cfg"⟩ [StartEv.absTimeout]
      [StartEv.procExit (some 1)] (Except.error (absTimeoutMsg ⟨str "mcpd", str "cfg"⟩ []))).2
      (List.mem_singleton.mpr rfl)⟩

/-! ## C7: catalog refresh and the cache -/

theorem cacheGet_set_self (c : Cache) (k : Str) (v : List McpdTool) :
    cacheGet (cacheSet c k v) k = some v := by
  induction c with
  | nil => simp [cacheSet, cacheGet]
  | cons kv rest ih =>
    obtain ⟨k', v'⟩ := kv
    by_cases h : k' = k
    · simp [cacheSet, cacheGet, h]
    · simp [cacheSet, cacheGet, h, ih]

theorem cacheGet_set_other (c : Cache) (k k' : Str) (v : List McpdTool)
    (h : k' ≠ k) : cacheGet (cacheSet c k v) k' = cacheGet c k' := by
  induction c with
  | nil => simp [cacheSet, cacheGet, Ne.symm h]
  | cons kv rest ih =>
    obtain ⟨k₀, v₀⟩ := kv
    by_cases h0 : k₀ = k
    · subst h0
      simp [cacheSet, cacheGet, Ne.symm h]
    · by_cases h1 : k₀ = k'
      · simp [cacheSet, cacheGet, h0, h1, h]
      · simp [cacheSet, cacheGet, h0, h1, ih]

theorem refreshLoop_cache_update (mode : Mode) (ns : Bool)
    (toolsO : Str → Except Str (List McpdTool)) (servers : List McpdServerR) :
    ∀ (c : Cache) (k : Str),
      (k ∈ servers.map McpdServerR.name →
        cacheGet ((refreshLoop mode ns toolsO servers c).2) k =
          some (fetchToolsWrap toolsO k)) ∧
      (k ∉ servers.map McpdServerR.name →
        cacheGet ((refreshLoop mode ns toolsO servers c).2) k = cacheGet c k) := by
  induction servers with
  | nil => intro c k; simp [refreshLoop]
  | cons sv rest ih =>
    intro c k
    constructor
    · intro hmem
      rw [refreshLoop]
      by_cases hr : k ∈ rest.map McpdServerR.name
      · exact ((ih _ k).1 hr)
      · have hd : k = sv.name ∨ ∃ a ∈ rest, a.name = k := by simpa using hmem
        have hk : k = sv.name := by
          rcases hd with h | ⟨a, ha, hka⟩
          · exact h
          · exact absurd (List.mem_map.mpr ⟨a, ha, hka⟩) hr
        rw [(ih _ k).2 hr, hk, cacheGet_set_self]
    · intro hmem
      rw [refreshLoop]
      have hk : k ≠ sv.name ∧ k ∉ rest.map McpdServerR.name := by
        constructor
        · intro h
          exact hmem (by rw [List.map_cons]; exact List.mem_cons.mpr (Or.inl h))
        · intro h
          exact hmem (by rw [List.map_cons]; exact List.mem_cons.mpr (Or.inr h))
      rw [(ih _ k).2 hk.2, cacheGet_set_other _ _ _ _ hk.1]

/-- C7 (amended): a catalog refresh is not atomic.  It writes per-server
entries into the cache as it iterates: after a refresh, every server in the
fetched list holds exactly this refresh's fetch result (an empty list when
that server's fetch failed), while every other key keeps its previous —
possibly stale — entry; only a refresh whose initial server-list fetch
fails leaves the cache entirely untouched. -/
theorem c7_refresh_not_atomic_amended (mode : Mode) (ns : Bool)
    (toolsO : Str → Except Str (List McpdTool)) (servers : List McpdServerR)
    (c : Cache) (k : Str) (e : Str) (target : Option Str) :
    (k ∈ servers.map McpdServerR.name →
      cacheGet ((refreshLoop mode ns toolsO servers c).2) k =
        some (fetchToolsWrap toolsO k)) ∧
    (k ∉ servers.map McpdServerR.name →
      cacheGet ((refreshLoop mode ns toolsO servers c).2) k = cacheGet c k) ∧
    (getAllToolsM mode ns target (Except.error e) toolsO c).2 = c := by
  refine ⟨(refreshLoop_cache_update mode ns toolsO servers c k).1,
    (refreshLoop_cache_update mode ns toolsO servers c k).2, ?_⟩
  rw [getAllToolsM]
  split
  · simp [fetchServersWrap, List.find?]
  · simp [fetchServersWrap, refreshLoop]

/-- Concrete refresh inputs: the daemon now lists only server `alpha`,
whose tools fetch succeeds, while the previous cache holds an entry for a
server `beta` no longer listed. -/
def exServersO : Except Str (List McpdServerR) :=
  Except.ok [⟨str "alpha", str "pkg-alpha"⟩]

/-- Concrete per-server tools oracle: `alpha` succeeds, every other fetch
fails. -/
def exToolsO : Str → Except Str (List McpdTool) := fun n =>
  if n = str "alpha" then Except.ok [⟨str "t1", none, none⟩]
  else Except.error (str "Request failed with status code 500")

/-- The cache left by a previous refresh: one entry for server `beta`. -/
def exCache0 : Cache := [(str "beta", [⟨str "t2", none, none⟩])]

/-- Witness for C7 (amended): at the concrete refresh, `alpha` holds the
new fetch result, `beta` keeps its previous entry, and a failed server-list
fetch leaves the cache untouched. -/
theorem c7_refresh_not_atomic_amended_witness :
    cacheGet ((refreshLoop Mode.unified true exToolsO
        [⟨str "alpha", str "pkg-alpha"⟩] exCache0).2) (str "alpha") =
      some (fetchToolsWrap exToolsO (str "alpha")) ∧
    cacheGet ((refreshLoop Mode.unified true exToolsO
        [⟨str "alpha", str "pkg-alpha"⟩] exCache0).2) (str "beta") =
      cacheGet exCache0 (str "beta") ∧
    (getAllToolsM Mode.unified true none
      (Except.error (str "connection refused")) exToolsO exCache0).2 = exCache0 :=
  ⟨(c7_refresh_not_atomic_amended Mode.unified true exToolsO
      [⟨str "alpha", str "pkg-alpha"⟩] exCache0 (str "alpha")
      (str "connection refused") none).1 (by decide),
   (c7_refresh_not_atomic_amended Mode.unified true exToolsO
      [⟨str "alpha", str "pkg-alpha"⟩] exCache0 (str "beta")
      (str "connection refused") none).2.1 (by decide),
   (c7_refresh_not_atomic_amended Mode.unified true exToolsO
      [⟨str "alpha", str "pkg-alpha"⟩] exCache0 (str "beta")
      (str "connection refused") none).2.2⟩

/-- Counterexample for C7 as stated: a fully successful refresh (every
fetch in it succeeded) leaves a cache that is neither the previous cache
nor a full replacement — the stale `beta` entry survives next to the fresh
`alpha` entry. -/
theorem c7_counterexample :
    cacheGet ((getAllToolsM Mode.unified true none exServersO exToolsO exCache0).2)
      (str "beta") = cacheGet exCache0 (str "beta") ∧
    cacheGet (specFreshCatalog Mode.unified true exToolsO
      (fetchServersWrap exServersO)) (str "beta") = none ∧
    ¬(((getAllToolsM Mode.unified true none exServersO exToolsO exCache0).2 = exCache0) ∨
      ((getAllToolsM Mode.unified true none exServersO exToolsO exCache0).2 =
        specFreshCatalog Mode.unified true exToolsO (fetchServersWrap exServersO))) := by
  refine ⟨rfl, rfl, ?_⟩
  intro h
  rcases h with h | h
  · exact absurd (congrArg (fun c => c.map Prod.fst) h) (by decide)
  · exact absurd (congrArg (fun c => c.map Prod.fst) h) (by decide)

/-! ## C8: tool-call failures become error results, not exceptions -/

/-- C8: the bridge's tool-call handler is total and its error flag is set
exactly when the call pipeline fails (name decode failure, backend call
failure, or response-formatting failure); every error-flagged result
carries a single human-readable `Error: ...` text block.  In particular no
failure escapes the handler as an exception. -/
theorem c8_call_tool_errors_to_results (mode : Mode) (ns : Bool)
    (target : Option Str) (backend : Str → Str → Json → Except Str Json)
    (name : Str) (args : Option Json) :
    ((callToolHandler mode ns target backend name args).isError = true ↔
      callFails mode ns target backend name args) ∧
    ((callToolHandler mode ns target backend name args).isError = true →
      ∃ m, callToolHandler mode ns target backend name args = errorResult m) := by
  rcases hp : parseToolName mode ns target name with m | ⟨sv, tl⟩
  · constructor
    · simp [callToolHandler, callFails, hp, errorResult]
    · intro _
      exact ⟨m, by simp [callToolHandler, hp]⟩
  · rcases hb : backend sv tl (argsOrEmpty args) with m | j
    · constructor
      · constructor
        · intro _
          exact Or.inr ⟨sv, tl, hp, Or.inl ⟨m, hb⟩⟩
        · intro _
          simp [callToolHandler, hp, hb, errorResult]
      · intro _
        exact ⟨m, by simp [callToolHandler, hp, hb]⟩
    · rcases hf : formatContent j with m | content
      · constructor
        · constructor
          · intro _
            exact Or.inr ⟨sv, tl, hp, Or.inr ⟨j, m, hb, hf⟩⟩
          · intro _
            simp [callToolHandler, hp, hb, hf, errorResult]
        · intro _
          exact ⟨m, by simp [callToolHandler, hp, hb, hf]⟩
      · have hok : callToolHandler mode ns target backend name args =
            { content := content, isError := false } := by
          simp [callToolHandler, hp, hb, hf]
        constructor
        · rw [hok]
          simp only [Bool.false_eq_true, false_iff]
          intro hfail
          rcases hfail with ⟨m, hm⟩ | ⟨sv', tl', hp', hrest⟩
          · rw [hp] at hm; exact Except.noConfusion hm
          · rw [hp] at hp'
            obtain ⟨h1, h2⟩ := Prod.mk.injEq .. ▸ Except.ok.inj hp'
            subst h1; subst h2
            rcases hrest with ⟨m, hm⟩ | ⟨j', m, hj, hfm⟩
            · rw [hb] at hm; exact Except.noConfusion hm
            · rw [hb] at hj
              have := Except.ok.inj hj
              subst this
              rw [hf] at hfm
              exact Except.noConfusion hfm
        · rw [hok]
          intro hfalse
          simp at hfalse

/-- A backend oracle on which every call fails (e.g. the daemon knows no
server named `unknown` and replies 404, which axios raises). -/
def exFailingBackend : Str → Str → Json → Except Str Json := fun _ _ _ =>
  Except.error (str "Request failed with status code 404")

/-- Witness for C8: `callTool("unknown__tool", {})` against a failing
backend returns an error-flagged result (and does not throw). -/
theorem c8_call_tool_errors_to_results_witness :
    ∃ m, callToolHandler Mode.unified true none exFailingBackend
      (str "unknown__tool") (some (Json.obj [])) = errorResult m :=
  (c8_call_tool_errors_to_results Mode.unified true none exFailingBackend
    (str "unknown__tool") (some (Json.obj []))).2 rfl

/-! ## C9: response normalization case split -/

/-- Modelled from the spec: the claimed normalization case split — a
response carrying a `content` array is passed through, a bare string is
wrapped as a single text block, and any other value is pretty-printed as
JSON inside a single text block. -/
def specNormalizeC9 (result : Json) : Json :=
  match (match result with
         | Json.obj kvs => lookupProp kvs (str "content")
         | _ => none) with
  | some (Json.arr xs) => Json.arr xs
  | _ =>
    match result with
    | Json.str s => Json.arr [textBlock s]
    | _ => Json.arr [textBlock (stringifyJson 0 result)]

/-- Discriminator used to separate the two normalization outcomes. -/
def jsonIsNum : Json → Bool
  | Json.num _ => true
  | _ => false

/-- C9 (amended): the bridge normalizes a backend response by truthiness of
its `content` property, not by it being an array: a truthy `content` (in
particular any content array) is passed through as the result's content; a
bare string is wrapped as a single text block; any other non-null value is
pretty-printed as JSON in a single text block; and a `null` response fails
the property access (surfacing as an error). -/
theorem c9_normalization_amended (j : Json) :
    (∀ c, propAccess j (str "content") = Except.ok (some c) → jsTruthy c = true →
      formatContent j = Except.ok c) ∧
    (∀ s, j = Json.str s → formatContent j = Except.ok (Json.arr [textBlock s])) ∧
    ((propAccess j (str "content") = Except.ok none ∨
      (∃ c, propAccess j (str "content") = Except.ok (some c) ∧ jsTruthy c = false)) →
      (∀ s, j ≠ Json.str s) →
      formatContent j = Except.ok (Json.arr [textBlock (stringifyJson 0 j)])) ∧
    (∀ m, propAccess j (str "content") = Except.error m →
      formatContent j = Except.error m) := by
  refine ⟨?_, ?_, ?_, ?_⟩
  · intro c hc ht
    simp [formatContent, hc, ht]
  · intro s hs
    subst hs
    simp [formatContent, propAccess]
  · intro hfalsy hns
    rcases hfalsy with hc | ⟨c, hc, ht⟩
    · cases j with
      | str s => exact absurd rfl (hns s)
      | null => simp [propAccess] at hc
      | bool b => simp [formatContent, propAccess]
      | num i => simp [formatContent, propAccess]
      | arr xs => simp [formatContent, propAccess]
      | obj kvs => simp [formatContent, propAccess] at hc ⊢; simp [hc]
    · cases j with
      | str s => exact absurd rfl (hns s)
      | null => simp [propAccess] at hc
      | bool b => simp [propAccess] at hc
      | num i => simp [propAccess] at hc
      | arr xs => simp [propAccess] at hc
      | obj kvs => simp [formatContent, propAccess] at hc ⊢; simp [hc, ht]
  · intro m hm
    simp [formatContent, hm]

/-- Witness for C9 (amended): a response carrying a (truthy) content array
is passed through, and the bare string `"hello"` is wrapped as
`{content:[{type:"text", text:"hello"}]}`. -/
theorem c9_normalization_amended_witness :
    formatContent (Json.obj [(str "content", Json.arr [textBlock (str "hi")])]) =
      Except.ok (Json.arr [textBlock (str "hi")]) ∧
    formatContent (Json.str (str "hello")) =
      Except.ok (Json.arr [textBlock (str "hello")]) :=
  ⟨(c9_normalization_amended
      (Json.obj [(str "content", Json.arr [textBlock (str "hi")])])).1
      (Json.arr [textBlock (str "hi")]) rfl rfl,
   (c9_normalization_amended (Json.str (str "hello"))).2.1 (str "hello") rfl⟩

/-- Counterexample for C9 as stated: the response `{content: 42}` carries
no content array and is not a string, so the claimed case split demands it
be pretty-printed as JSON text; the code instead passes the truthy number
`42` through as the result's content. -/
theorem c9_counterexample :
    formatContent (Json.obj [(str "content", Json.num 42)]) =
      Except.ok (Json.num 42) ∧
    specNormalizeC9 (Json.obj [(str "content", Json.num 42)]) =
      Json.arr [textBlock (stringifyJson 0 (Json.obj [(str "content", Json.num 42)]))] ∧
    formatContent (Json.obj [(str "content", Json.num 42)]) ≠
      Except.ok (specNormalizeC9 (Json.obj [(str "content", Json.num 42)])) := by
  refine ⟨rfl, rfl, ?_⟩
  intro h
  rw [show formatContent (Json.obj [(str "content", Json.num 42)]) =
    Except.ok (Json.num 42) from rfl] at h
  have h2 : jsonIsNum (Json.num 42) =
      jsonIsNum (specNormalizeC9 (Json.obj [(str "content", Json.num 42)])) :=
    congrArg jsonIsNum (Except.ok.inj h)
  exact absurd h2 (by decide)

end McpdClient
